import Mathlib

/-!
Verification of `src/todolist.py`, a single-user CLI to-do list over SQLite.

The program is embedded shallowly:

* Python strings are lists of Unicode codepoints (`PyStr := List Nat`);
  `str.strip`, `str.lower`, `str.split(maxsplit=1)` and `int(...)` are
  modelled over that representation.
* The SQLite table `tasks(id INTEGER PRIMARY KEY AUTOINCREMENT, description
  TEXT NOT NULL, status TEXT NOT NULL DEFAULT 'pending', created_at
  TIMESTAMP DEFAULT CURRENT_TIMESTAMP)` is a list of `Task` rows in rowid
  (insertion) order together with the AUTOINCREMENT sequence counter
  (`nextId`).  `created_at` is an abstract timestamp (`Nat`), supplied to
  each insert by the caller, standing for `CURRENT_TIMESTAMP`.
* Each repository function (`add_task`, `view_tasks`, `update_task_status`,
  `delete_task`) becomes a pure function from the database state to the new
  state plus the outcome it prints; `ORDER BY created_at DESC` is a sort by
  the timestamp, descending.
* One iteration of the `main` REPL loop becomes `processLine`, mapping the
  raw input line and the database to the new database, the printed
  messages, and whether the loop continues.
-/

namespace Todo

/-- A Python string, as its list of Unicode codepoints. -/
abbrev PyStr := List Nat

/-- Python `str.isspace` for a single codepoint, restricted to the ASCII
whitespace characters relevant to `strip`/`split`. -/
def isSpace (c : Nat) : Bool :=
  c == 32 || c == 9 || c == 10 || c == 13 || c == 11 || c == 12

/-- Python `str.lower` on one codepoint (ASCII range). -/
def lowerChar (c : Nat) : Nat :=
  if 65 ≤ c ∧ c ≤ 90 then c + 32 else c

/-- Python `str.lower`. -/
def lower (s : PyStr) : PyStr := s.map lowerChar

/-- Python `str.lstrip()`. -/
def stripLeft (s : PyStr) : PyStr := s.dropWhile isSpace

/-- Python `str.rstrip()`. -/
def stripRight (s : PyStr) : PyStr := (s.reverse.dropWhile isSpace).reverse

/-- Python `str.strip()`. -/
def strip (s : PyStr) : PyStr := stripRight (stripLeft s)

/-- Python `s.split(maxsplit=1)`: the first whitespace-delimited token and
the remainder with its leading whitespace consumed.  `main` applies this to
the stripped, lowercased input line; an all-whitespace input yields
`([], [])`, matching Python's empty `parts` list (command `""`, no
argument). -/
def splitFirst (s : PyStr) : PyStr × PyStr :=
  ((s.dropWhile isSpace).takeWhile (fun c => !isSpace c),
   ((s.dropWhile isSpace).dropWhile (fun c => !isSpace c)).dropWhile isSpace)

/-- Decimal digit test. -/
def isDigitN (c : Nat) : Bool := 48 ≤ c && c ≤ 57

/-- Digit-run parser for Python `int`: digits with single underscores
allowed strictly between digits. `acc` is the value parsed so far. -/
def pyDigitsAux : List Nat → Nat → Option Nat
  | [], acc => some acc
  | c :: rest, acc =>
    if isDigitN c then pyDigitsAux rest (acc * 10 + (c - 48))
    else if c == 95 then
      match rest with
      | d :: _ => if isDigitN d then pyDigitsAux rest acc else none
      | [] => none
    else none

/-- A nonempty digit run (Python `int` body after the sign). -/
def pyIntDigits (s : List Nat) : Option Nat :=
  match s with
  | c :: _ => if isDigitN c then pyDigitsAux s 0 else none
  | [] => none

/-- Python `int(s)` for base 10: optional sign then digits; `none` models
`ValueError`.  The caller (`main`) passes an already stripped string. -/
def pyInt? (s : PyStr) : Option Int :=
  match s with
  | 43 :: rest => (pyIntDigits rest).map (fun n => (n : Int))
  | 45 :: rest => (pyIntDigits rest).map (fun n => -(n : Int))
  | _ => (pyIntDigits s).map (fun n => (n : Int))

/-- Embed a Lean string literal as a `PyStr` (for the command and status
constants of the program). -/
def str (s : String) : PyStr := s.data.map (fun c => c.toNat)

/-- The status value `'pending'`. -/
def pendingS : PyStr := str "pending"

/-- The status value `'completed'`. -/
def completedS : PyStr := str "completed"

/-- One row of the `tasks` table. -/
structure Task where
  id : Nat
  description : PyStr
  status : PyStr
  created_at : Nat
deriving DecidableEq, Repr

/-- The database: rows in rowid order plus the AUTOINCREMENT counter
(the id the next `INSERT` will receive). -/
structure DB where
  tasks : List Task
  nextId : Nat
deriving DecidableEq, Repr

/-- A freshly initialized database (`initialize_database` on a new file):
no rows, AUTOINCREMENT starts at 1. -/
def db0 : DB := ⟨[], 1⟩

/-- The probe `SELECT id FROM tasks WHERE id = ?` finds a row. -/
def hasId (db : DB) (i : Int) : Bool :=
  db.tasks.any (fun t => (t.id : Int) == i)

example : str "add" = [97, 100, 100] := by decide
example : pendingS ≠ completedS := by decide
example : pyInt? (str "12") = some 12 := by decide
example : pyInt? (str "-5") = some (-5) := by decide
example : pyInt? (str "1_0") = some 10 := by decide
example : pyInt? (str "a1") = none := by decide
example : pyInt? (str "1 2") = none := by decide
example : pyInt? [] = none := by decide
example : strip (str "  add  x ") = str "add  x" := by decide
example : splitFirst (str "add  buy milk") = (str "add", str "buy milk") := by decide
example : splitFirst [] = ([], []) := by decide
example : lower (str "ADD Milk") = str "add milk" := by decide

/-- The order `ORDER BY created_at DESC`: weak descending order on timestamps. -/
def byCreatedDesc (a b : Task) : Prop := b.created_at ≤ a.created_at

instance : DecidableRel byCreatedDesc := fun a b => Nat.decLe b.created_at a.created_at

instance : IsTotal Task byCreatedDesc := ⟨fun a b => Nat.le_total b.created_at a.created_at⟩

instance : IsTrans Task byCreatedDesc := ⟨fun _ _ _ h1 h2 => Nat.le_trans h2 h1⟩

/-- Function `add_task`: `INSERT INTO tasks (description) VALUES (?)`.  The row gets
the AUTOINCREMENT id, the default status `'pending'` and `CURRENT_TIMESTAMP`
(`now`).  Returns the new state and `cursor.lastrowid`.  The function
performs no validation of `description` (the `TEXT NOT NULL` constraint is
satisfied by any string value, including the empty one). -/
def add_task (now : Nat) (description : PyStr) (db : DB) : DB × Nat :=
  ({ tasks := db.tasks ++ [⟨db.nextId, description, pendingS, now⟩],
     nextId := db.nextId + 1 },
   db.nextId)

/-- The rows `view_tasks` fetches: `SELECT … FROM tasks [WHERE status = ?]
ORDER BY created_at DESC`.  Python's `if status_filter:` is a truthiness
test, so `None` and the empty string both omit the `WHERE` clause. -/
def view_rows (db : DB) (status_filter : Option PyStr) : List Task :=
  List.insertionSort byCreatedDesc
    (match status_filter with
     | none => db.tasks
     | some f => if f = [] then db.tasks
                 else db.tasks.filter (fun t => t.status == f))

/-- What `update_task_status` prints. -/
inductive UpdateResult where
  | invalidStatus
  | notFound
  | updated
  | updatedNoRow
deriving DecidableEq, Repr

/-- Function `update_task_status`: validate the status, `SELECT id … WHERE id = ?`
(`fetchone`), then `UPDATE tasks SET status = ? WHERE id = ?`; afterwards
`cursor.rowcount > 0` decides between the success message and the
ambiguous "already … or not found" message (SQLite counts every matched
row, changed value or not). -/
def update_task_status (task_id : Int) (new_status : PyStr) (db : DB) :
    DB × UpdateResult :=
  if ¬ (new_status = pendingS ∨ new_status = completedS) then
    (db, .invalidStatus)
  else
    match db.tasks.find? (fun t => (t.id : Int) == task_id) with
    | none => (db, .notFound)
    | some _ =>
      if 0 < (db.tasks.filter (fun t => (t.id : Int) == task_id)).length then
        ({ db with tasks := db.tasks.map (fun t =>
            if (t.id : Int) == task_id then { t with status := new_status } else t) },
         .updated)
      else
        ({ db with tasks := db.tasks.map (fun t =>
            if (t.id : Int) == task_id then { t with status := new_status } else t) },
         .updatedNoRow)

/-- What `delete_task` prints. -/
inductive DeleteResult where
  | notFound
  | deleted
  | notFoundDuringDeletion
deriving DecidableEq, Repr

/-- Function `delete_task`: `SELECT id … WHERE id = ?` (`fetchone`), then
`DELETE FROM tasks WHERE id = ?`; `cursor.rowcount > 0` decides between the
success message and the "not found during deletion" message. -/
def delete_task (task_id : Int) (db : DB) : DB × DeleteResult :=
  match db.tasks.find? (fun t => (t.id : Int) == task_id) with
  | none => (db, .notFound)
  | some _ =>
    if 0 < (db.tasks.filter (fun t => (t.id : Int) == task_id)).length then
      ({ db with tasks := db.tasks.filter (fun t => !((t.id : Int) == task_id)) },
       .deleted)
    else
      ({ db with tasks := db.tasks.filter (fun t => !((t.id : Int) == task_id)) },
       .notFoundDuringDeletion)

/-- A message printed during one REPL iteration (abstracting the exact
`print` text of `main` and the repository functions). -/
inductive Msg where
  | taskAdded (desc : PyStr) (id : Nat)
  | noTasks (filt : Option PyStr)
  | taskList (rows : List Task)
  | invalidStatus (st : PyStr)
  | notFound (id : Int)
  | marked (id : Int) (st : PyStr)
  | alreadyOrNotFound (id : Int) (st : PyStr)
  | deleted (id : Int)
  | notFoundDuringDeletion (id : Int)
  | goodbye
  | missingDescription
  | badFilter (arg : PyStr)
  | missingId (cmd : PyStr)
  | badId (arg : PyStr) (cmd : PyStr)
  | unknownCommand (cmd : PyStr)
  | helpLine
deriving DecidableEq, Repr

/-- What `view_tasks` prints: the "no tasks" message or the row listing. -/
def viewMsg (db : DB) (f : Option PyStr) : Msg :=
  if view_rows db f = [] then .noTasks f else .taskList (view_rows db f)

/-- The message `update_task_status` prints for each outcome. -/
def updMsg (id : Int) (st : PyStr) : UpdateResult → Msg
  | .invalidStatus => .invalidStatus st
  | .notFound => .notFound id
  | .updated => .marked id st
  | .updatedNoRow => .alreadyOrNotFound id st

/-- The message `delete_task` prints for each outcome. -/
def delMsg (id : Int) : DeleteResult → Msg
  | .notFound => .notFound id
  | .deleted => .deleted id
  | .notFoundDuringDeletion => .notFoundDuringDeletion id

/-- The `if`/`elif` chain of `main` on the command token and the argument
remainder (`parts[0]` and, when present, `parts[1]`; an absent `parts[1]`
is the empty `arg`).  Returns the new database, the printed messages, and
whether the loop continues (`false` only for `exit`, whose `break` ends
the loop).  The branch order is that of `main`. -/
def dispatch (now : Nat) (command arg : PyStr) (db : DB) : DB × List Msg × Bool :=
  if command = str "exit" then (db, [.goodbye], false)
  else if command = str "add" then
    if arg ≠ [] then
      ((add_task now arg db).1, [.taskAdded arg (add_task now arg db).2], true)
    else (db, [.missingDescription], true)
  else if command = str "view" then
    if arg ≠ [] then
      if lower arg = pendingS ∨ lower arg = completedS then
        (db, [viewMsg db (some (lower arg))], true)
      else (db, [.badFilter (lower arg)], true)
    else (db, [viewMsg db none], true)
  else if command = str "complete" ∨ command = str "pending" ∨ command = str "delete" then
    if arg ≠ [] then
      match pyInt? arg with
      | none => (db, [.badId arg command], true)
      | some n =>
        if command = str "complete" then
          ((update_task_status n completedS db).1,
           [updMsg n completedS (update_task_status n completedS db).2], true)
        else if command = str "pending" then
          ((update_task_status n pendingS db).1,
           [updMsg n pendingS (update_task_status n pendingS db).2], true)
        else
          ((delete_task n db).1, [delMsg n (delete_task n db).2], true)
    else (db, [.missingId command], true)
  else if command = [] then (db, [], true)
  else (db, [.unknownCommand command, .helpLine], true)

/-- Tokenization plus dispatch of `main` on the already
stripped-and-lowercased input `u`. -/
def processCore (now : Nat) (u : PyStr) (db : DB) : DB × List Msg × Bool :=
  dispatch now (splitFirst u).1 (splitFirst u).2 db

/-- One iteration of the REPL loop of `main`:
`user_input = input(...).strip().lower()`, then tokenize and dispatch. -/
def processLine (now : Nat) (rawLine : PyStr) (db : DB) : DB × List Msg × Bool :=
  processCore now (lower (strip rawLine)) db

/-- A repository-level operation, for reasoning about sequences of
mutations (the three mutating commands of the loop). -/
inductive Op where
  | add (now : Nat) (desc : PyStr)
  | setStatus (id : Int) (st : PyStr)
  | del (id : Int)

/-- Apply one operation to the database, discarding the printed outcome. -/
def applyOp (db : DB) : Op → DB
  | .add now d => (add_task now d db).1
  | .setStatus i s => (update_task_status i s db).1
  | .del i => (delete_task i db).1

/-- Run a sequence of operations. -/
def runOps (db : DB) (ops : List Op) : DB := ops.foldl applyOp db

/-- The ids returned (`cursor.lastrowid`) by the successive `add`
operations of a session, in order. -/
def issuedIds : DB → List Op → List Nat
  | _, [] => []
  | db, .add now d :: rest =>
    (add_task now d db).2 :: issuedIds (add_task now d db).1 rest
  | db, op :: rest => issuedIds (applyOp db op) rest

/-- The database invariant: ids are unique and below the AUTOINCREMENT
counter, and every status is one of the two allowed values. -/
def goodDB (db : DB) : Prop :=
  (db.tasks.map (fun t => t.id)).Nodup ∧
  (∀ t ∈ db.tasks, t.id < db.nextId) ∧
  (∀ t ∈ db.tasks, t.status = pendingS ∨ t.status = completedS)

example : processLine 0 (str "  ADD Buy Milk ") db0 =
    (⟨[⟨1, str "buy milk", pendingS, 0⟩], 2⟩,
     [.taskAdded (str "buy milk") 1], true) := by decide

example : processLine 0 (str "bogus") db0 =
    (db0, [.unknownCommand (str "bogus"), .helpLine], true) := by decide

example : processLine 0 (str "   ") db0 = (db0, [], true) := by decide

example : processLine 0 (str "EXIT") db0 = (db0, [.goodbye], false) := by decide

example : processLine 0 (str "complete x") db0 =
    (db0, [.badId (str "x") (str "complete")], true) := by decide

example : processLine 0 (str "complete 3") db0 = (db0, [.notFound 3], true) := by decide

example : processLine 0 (str "view stuff") db0 =
    (db0, [.badFilter (str "stuff")], true) := by decide

example : processLine 0 (str "view") db0 = (db0, [.noTasks none], true) := by decide

/-! ### Helper lemmas about the status-update row function -/

lemma statusUpd_id (st : PyStr) (i : Int) (t : Task) :
    (if (t.id : Int) == i then { t with status := st } else t).id = t.id := by
  split <;> rfl

lemma statusUpd_description (st : PyStr) (i : Int) (t : Task) :
    (if (t.id : Int) == i then { t with status := st } else t).description
      = t.description := by
  split <;> rfl

lemma any_id_statusUpd (l : List Task) (st : PyStr) (i j : Int) :
    (l.map (fun t => if (t.id : Int) == i then { t with status := st } else t)).any
      (fun t => (t.id : Int) == j) = l.any (fun t => (t.id : Int) == j) := by
  induction l with
  | nil => rfl
  | cons a l ih => simp only [List.map_cons, List.any_cons, ih, statusUpd_id]

lemma map_desc_statusUpd (l : List Task) (st : PyStr) (i : Int) :
    (l.map (fun t => if (t.id : Int) == i then { t with status := st } else t)).map
      (fun t => t.description) = l.map (fun t => t.description) := by
  rw [List.map_map]
  exact List.map_congr_left (fun t _ => statusUpd_description st i t)

lemma map_id_statusUpd (l : List Task) (st : PyStr) (i : Int) :
    (l.map (fun t => if (t.id : Int) == i then { t with status := st } else t)).map
      (fun t => t.id) = l.map (fun t => t.id) := by
  rw [List.map_map]
  exact List.map_congr_left (fun t _ => statusUpd_id st i t)

lemma status_mem_statusUpd {l : List Task} {st : PyStr} {i : Int} {t : Task}
    (ht : t ∈ l.map (fun t => if (t.id : Int) == i then { t with status := st } else t)) :
    t.status = st ∨ ∃ s ∈ l, t.status = s.status := by
  rcases List.mem_map.1 ht with ⟨s, hs, rfl⟩
  by_cases h : ((s.id : Int) == i) = true
  · left; simp [h]
  · right; exact ⟨s, hs, by simp [h]⟩

lemma status_eq_of_statusUpd {l : List Task} {st : PyStr} {i : Int} {t : Task}
    (ht : t ∈ l.map (fun t => if (t.id : Int) == i then { t with status := st } else t))
    (hid : (t.id : Int) = i) : t.status = st := by
  rcases List.mem_map.1 ht with ⟨s, hs, rfl⟩
  by_cases h : ((s.id : Int) == i) = true
  · simp [h]
  · rw [statusUpd_id] at hid
    exact absurd (beq_iff_eq.2 hid) h

/-! ### Branch characterizations of the repository operations -/

lemma update_found {db : DB} {i : Int} {st : PyStr}
    (hv : st = pendingS ∨ st = completedS) (h : hasId db i = true) :
    update_task_status i st db =
      ({ db with tasks := db.tasks.map (fun t =>
          if (t.id : Int) == i then { t with status := st } else t) }, .updated) := by
  rcases List.any_eq_true.1 h with ⟨x, hx, hpx⟩
  unfold update_task_status
  rw [if_neg (not_not_intro hv)]
  cases hfind : db.tasks.find? (fun t => (t.id : Int) == i) with
  | none => exact absurd hpx (List.find?_eq_none.1 hfind x hx)
  | some y =>
    rw [if_pos (List.length_pos_of_mem (List.mem_filter.2 ⟨hx, hpx⟩))]

lemma delete_found {db : DB} {i : Int} (h : hasId db i = true) :
    delete_task i db =
      ({ db with tasks := db.tasks.filter (fun t => !((t.id : Int) == i)) },
       .deleted) := by
  rcases List.any_eq_true.1 h with ⟨x, hx, hpx⟩
  unfold delete_task
  cases hfind : db.tasks.find? (fun t => (t.id : Int) == i) with
  | none => exact absurd hpx (List.find?_eq_none.1 hfind x hx)
  | some y =>
    rw [if_pos (List.length_pos_of_mem (List.mem_filter.2 ⟨hx, hpx⟩))]

lemma update_tasks_cases (i : Int) (st : PyStr) (db : DB) :
    (update_task_status i st db).1.tasks = db.tasks ∨
    ((st = pendingS ∨ st = completedS) ∧
      (update_task_status i st db).1.tasks = db.tasks.map (fun t =>
        if (t.id : Int) == i then { t with status := st } else t)) := by
  unfold update_task_status
  split
  · exact Or.inl rfl
  next hv =>
    split
    · exact Or.inl rfl
    · split
      · exact Or.inr ⟨not_not.1 hv, rfl⟩
      · exact Or.inr ⟨not_not.1 hv, rfl⟩

lemma update_nextId (i : Int) (st : PyStr) (db : DB) :
    (update_task_status i st db).1.nextId = db.nextId := by
  unfold update_task_status
  repeat' split
  all_goals rfl

lemma delete_tasks_cases (i : Int) (db : DB) :
    (delete_task i db).1.tasks = db.tasks ∨
    (delete_task i db).1.tasks
      = db.tasks.filter (fun t => !((t.id : Int) == i)) := by
  unfold delete_task
  repeat' split
  · exact Or.inl rfl
  · exact Or.inr rfl
  · exact Or.inr rfl

lemma delete_nextId (i : Int) (db : DB) :
    (delete_task i db).1.nextId = db.nextId := by
  unfold delete_task
  repeat' split
  all_goals rfl

/-! ### C1, C5, C6: status updates and deletion -/

/-- C1: for every task id present in the store, `update_task_status id
'completed'` reports success (`Task ID … marked as completed.`), doing it
again still reports success, and afterwards the task's status is
`'completed'` — re-asserting the current status is an idempotent
success. -/
theorem setStatus_completed_idempotent (db : DB) (i : Int) (h : hasId db i = true) :
    (update_task_status i completedS db).2 = .updated ∧
    (update_task_status i completedS (update_task_status i completedS db).1).2
      = .updated ∧
    ∀ t ∈ (update_task_status i completedS
            (update_task_status i completedS db).1).1.tasks,
      (t.id : Int) = i → t.status = completedS := by
  have h1 := @update_found db i completedS (Or.inr rfl) h
  have h2db : hasId (update_task_status i completedS db).1 i = true := by
    rw [h1]
    show (db.tasks.map _).any _ = true
    rw [any_id_statusUpd]
    exact h
  have h2 := update_found (Or.inr rfl) h2db
  refine ⟨by rw [h1], by rw [h2], ?_⟩
  intro t ht hid
  rw [h2] at ht
  exact status_eq_of_statusUpd ht hid

/-- Witness for C1 at a concrete one-task store. -/
theorem setStatus_completed_idempotent_witness :
    hasId ⟨[⟨1, str "x", pendingS, 0⟩], 2⟩ 1 = true ∧
    (update_task_status 1 completedS ⟨[⟨1, str "x", pendingS, 0⟩], 2⟩).2 = .updated ∧
    (update_task_status 1 completedS
      (update_task_status 1 completedS ⟨[⟨1, str "x", pendingS, 0⟩], 2⟩).1).2
        = .updated :=
  ⟨by decide,
   (setStatus_completed_idempotent ⟨[⟨1, str "x", pendingS, 0⟩], 2⟩ 1 (by decide)).1,
   (setStatus_completed_idempotent ⟨[⟨1, str "x", pendingS, 0⟩], 2⟩ 1 (by decide)).2.1⟩

/-- C5: for an id not present in the store and a valid status value,
`update_task_status` reports not-found and leaves the store completely
unchanged. -/
theorem setStatus_missing_notFound (db : DB) (i : Int) (st : PyStr)
    (hv : st = pendingS ∨ st = completedS) (h : hasId db i = false) :
    update_task_status i st db = (db, .notFound) := by
  unfold update_task_status
  rw [if_neg (not_not_intro hv)]
  have hf : db.tasks.find? (fun t => (t.id : Int) == i) = none :=
    List.find?_eq_none.2 (List.any_eq_false.1 h)
  rw [hf]

/-- Witness for C5 at a concrete store and id. -/
theorem setStatus_missing_notFound_witness :
    (completedS = pendingS ∨ completedS = completedS) ∧
    hasId db0 7 = false ∧
    update_task_status 7 completedS db0 = (db0, .notFound) :=
  ⟨Or.inr rfl, by decide,
   setStatus_missing_notFound db0 7 completedS (Or.inr rfl) (by decide)⟩

lemma delete_twice (db : DB) (i : Int) :
    delete_task i { db with tasks := db.tasks.filter (fun t => !((t.id : Int) == i)) }
      = ({ db with tasks := db.tasks.filter (fun t => !((t.id : Int) == i)) },
         .notFound) := by
  unfold delete_task
  have hf : (db.tasks.filter (fun t => !((t.id : Int) == i))).find?
      (fun t => (t.id : Int) == i) = none := by
    apply List.find?_eq_none.2
    intro x hx
    rcases List.mem_filter.1 hx with ⟨_, hq⟩
    rw [Bool.not_eq_true'] at hq
    simp [hq]
  rw [hf]

/-- C6: deleting a present id reports success and removes exactly the rows
with that id, so the subsequent unfiltered listing does not contain it;
deleting the same id again reports not-found and changes nothing. -/
theorem deleteTask_removes (db : DB) (i : Int) (h : hasId db i = true) :
    (delete_task i db).2 = .deleted ∧
    (delete_task i db).1.tasks
      = db.tasks.filter (fun t => !((t.id : Int) == i)) ∧
    (∀ t ∈ view_rows (delete_task i db).1 none, (t.id : Int) ≠ i) ∧
    delete_task i (delete_task i db).1 = ((delete_task i db).1, .notFound) := by
  have h1 := delete_found h
  refine ⟨by rw [h1], by rw [h1], ?_, ?_⟩
  · intro t ht hid
    rw [h1] at ht
    have ht' : t ∈ db.tasks.filter (fun t => !((t.id : Int) == i)) :=
      (List.mem_insertionSort byCreatedDesc).1 ht
    rcases List.mem_filter.1 ht' with ⟨_, hq⟩
    rw [Bool.not_eq_true'] at hq
    exact absurd (beq_iff_eq.2 hid) (by simp [hq])
  · rw [h1]
    exact delete_twice db i

/-- Every description in the store after one dispatch step is either an
already-stored description or the (necessarily nonempty) argument of an
`add` command. -/
lemma dispatch_descriptions (now : Nat) (c a : PyStr) (db : DB) :
    ∀ d ∈ ((dispatch now c a db).1.tasks.map (fun t => t.description)),
      d ∈ db.tasks.map (fun t => t.description) ∨ (d = a ∧ a ≠ []) := by
  unfold dispatch
  intro d hd
  repeat' split at hd
  all_goals try exact Or.inl hd
  · rcases List.mem_map.1 hd with ⟨t, ht, rfl⟩
    have ht' : t ∈ db.tasks ++ [⟨db.nextId, a, pendingS, now⟩] := ht
    rcases List.mem_append.1 ht' with h | h
    · exact Or.inl (List.mem_map.2 ⟨t, h, rfl⟩)
    · right
      rw [List.mem_singleton] at h
      subst h
      exact ⟨rfl, ‹¬a = []›⟩
  · rcases update_tasks_cases _ _ db with hcase | ⟨_, hcase⟩
    · rw [hcase] at hd; exact Or.inl hd
    · rw [hcase, map_desc_statusUpd] at hd; exact Or.inl hd
  · rcases update_tasks_cases _ _ db with hcase | ⟨_, hcase⟩
    · rw [hcase] at hd; exact Or.inl hd
    · rw [hcase, map_desc_statusUpd] at hd; exact Or.inl hd
  · rcases delete_tasks_cases _ db with hcase | hcase
    · rw [hcase] at hd; exact Or.inl hd
    · rw [hcase] at hd
      exact Or.inl (((List.filter_sublist _).map _).subset hd)

/-- Witness for C6 at a concrete one-task store. -/
theorem deleteTask_removes_witness :
    hasId ⟨[⟨1, str "x", pendingS, 0⟩], 2⟩ 1 = true ∧
    (delete_task 1 ⟨[⟨1, str "x", pendingS, 0⟩], 2⟩).2 = .deleted ∧
    delete_task 1 (delete_task 1 ⟨[⟨1, str "x", pendingS, 0⟩], 2⟩).1
      = ((delete_task 1 ⟨[⟨1, str "x", pendingS, 0⟩], 2⟩).1, .notFound) :=
  ⟨by decide,
   (deleteTask_removes ⟨[⟨1, str "x", pendingS, 0⟩], 2⟩ 1 (by decide)).1,
   (deleteTask_removes ⟨[⟨1, str "x", pendingS, 0⟩], 2⟩ 1 (by decide)).2.2.2⟩

/-! ### C2: adding tasks and the (absent) empty-description validation -/

/-- C2 counterexample: `add_task` performs no emptiness check.  Called with
the empty description on the fresh store it succeeds and inserts a row
(the `TEXT NOT NULL` constraint is satisfied by the empty string), so the
claim "fails with ValidationError … no row is ever inserted for an empty
description" is false at this input. -/
theorem add_task_empty_inserts_row :
    (add_task 0 [] db0).1.tasks = [⟨1, [], pendingS, 0⟩] ∧
    (add_task 0 [] db0).1.tasks ≠ db0.tasks := by decide

/-- C2 (amended): `add_task` itself validates nothing — for every
description, empty or not, it inserts exactly one row with status
`'pending'` and the given timestamp and returns the generated id; an empty
description is instead rejected one level up, by the command loop, which
refuses an `add` without an argument, so a REPL step never stores an empty
description that was not already stored. -/
theorem add_task_inserts_unvalidated :
    (∀ (now : Nat) (desc : PyStr) (db : DB),
      add_task now desc db =
        ({ tasks := db.tasks ++ [⟨db.nextId, desc, pendingS, now⟩],
           nextId := db.nextId + 1 }, db.nextId)) ∧
    (∀ (now : Nat) (line : PyStr) (db : DB),
      ∀ t ∈ (processLine now line db).1.tasks,
        t.description ∈ db.tasks.map (fun t => t.description) ∨
        t.description ≠ []) := by
  refine ⟨fun now desc db => rfl, fun now line db t ht => ?_⟩
  have hd := dispatch_descriptions now (splitFirst (lower (strip line))).1
    (splitFirst (lower (strip line))).2 db t.description
    (List.mem_map.2 ⟨t, ht, rfl⟩)
  rcases hd with h | ⟨h1, h2⟩
  · exact Or.inl h
  · exact Or.inr (h1 ▸ h2)

/-- Witness for the amended C2 at a concrete input. -/
theorem add_task_inserts_unvalidated_witness :
    add_task 3 (str "buy milk") db0 =
      ({ tasks := [⟨1, str "buy milk", pendingS, 3⟩], nextId := 2 }, 1) ∧
    (str "milk" ∈ db0.tasks.map (fun t => t.description) ∨ str "milk" ≠ []) :=
  ⟨(add_task_inserts_unvalidated.1 3 (str "buy milk") db0).trans (by decide),
   add_task_inserts_unvalidated.2 0 (str "add Milk") db0
     ⟨1, str "milk", pendingS, 0⟩ (by decide)⟩

/-! ### C3, C4: listing and filtering -/

lemma view_rows_none (db : DB) :
    view_rows db none = List.insertionSort byCreatedDesc db.tasks := rfl

lemma view_rows_some (db : DB) (f : PyStr) (hf : f ≠ []) :
    view_rows db (some f)
      = List.insertionSort byCreatedDesc
          (db.tasks.filter (fun t => t.status == f)) := by
  unfold view_rows
  show List.insertionSort byCreatedDesc
    (if f = [] then db.tasks else db.tasks.filter (fun t => t.status == f)) = _
  rw [if_neg hf]

/-- C3 counterexample: two tasks added within the same timestamp tick (the
schema's `CURRENT_TIMESTAMP` has one-second resolution) share a creation
time, so the listing cannot be *strictly* descending in creation time. -/
theorem view_none_not_strictly_descending :
    ¬ (view_rows (runOps db0 [.add 5 (str "a"), .add 5 (str "b")]) none).Pairwise
        (fun x y => y.created_at < x.created_at) := by decide

/-- C3 (amended): the unfiltered listing returns exactly the stored tasks
(those ever added and not deleted), ordered by creation time descending —
non-strictly: tasks sharing a creation timestamp may appear in either
order. -/
theorem view_none_returns_all_sorted (db : DB) :
    (view_rows db none).Perm db.tasks ∧
    (view_rows db none).Sorted byCreatedDesc :=
  ⟨List.perm_insertionSort byCreatedDesc db.tasks,
   List.sorted_insertionSort byCreatedDesc db.tasks⟩

/-! ### Reachable-state invariant machinery (C4, C8) -/

lemma goodDB_db0 : goodDB db0 := by
  refine ⟨List.nodup_nil, ?_, ?_⟩ <;> intro t ht <;> cases ht

lemma goodDB_add (db : DB) (now : Nat) (d : PyStr) (h : goodDB db) :
    goodDB (add_task now d db).1 := by
  obtain ⟨hnd, hlt, hst⟩ := h
  refine ⟨?_, ?_, ?_⟩
  · show ((db.tasks ++ [Task.mk db.nextId d pendingS now]).map (fun t => t.id)).Nodup
    rw [List.map_append, List.nodup_append]
    refine ⟨hnd, List.nodup_singleton _, ?_⟩
    intro x hx hx'
    rcases List.mem_map.1 hx with ⟨t, ht, rfl⟩
    rw [List.map_singleton, List.mem_singleton] at hx'
    exact absurd (hx' ▸ hlt t ht) (lt_irrefl _)
  · intro t ht
    rcases List.mem_append.1 ht with h1 | h1
    · exact Nat.lt_trans (hlt t h1) (Nat.lt_succ_self _)
    · rw [List.mem_singleton] at h1
      subst h1
      exact Nat.lt_succ_self _
  · intro t ht
    rcases List.mem_append.1 ht with h1 | h1
    · exact hst t h1
    · rw [List.mem_singleton] at h1
      subst h1
      exact Or.inl rfl

lemma goodDB_update (db : DB) (i : Int) (st : PyStr) (h : goodDB db) :
    goodDB (update_task_status i st db).1 := by
  obtain ⟨hnd, hlt, hst⟩ := h
  rcases update_tasks_cases i st db with hcase | ⟨hv, hcase⟩
  · refine ⟨by rw [hcase]; exact hnd, fun t ht => ?_, fun t ht => ?_⟩
    · rw [hcase] at ht
      rw [update_nextId]
      exact hlt t ht
    · rw [hcase] at ht
      exact hst t ht
  · refine ⟨?_, fun t ht => ?_, fun t ht => ?_⟩
    · rw [hcase, map_id_statusUpd]
      exact hnd
    · rw [hcase] at ht
      rw [update_nextId]
      rcases List.mem_map.1 ht with ⟨s, hs, rfl⟩
      rw [statusUpd_id]
      exact hlt s hs
    · rw [hcase] at ht
      rcases status_mem_statusUpd ht with h1 | ⟨s, hs, h1⟩
      · rw [h1]; exact hv
      · rw [h1]; exact hst s hs

lemma goodDB_delete (db : DB) (i : Int) (h : goodDB db) :
    goodDB (delete_task i db).1 := by
  obtain ⟨hnd, hlt, hst⟩ := h
  rcases delete_tasks_cases i db with hcase | hcase
  · refine ⟨by rw [hcase]; exact hnd, fun t ht => ?_, fun t ht => ?_⟩
    · rw [hcase] at ht
      rw [delete_nextId]
      exact hlt t ht
    · rw [hcase] at ht
      exact hst t ht
  · refine ⟨?_, fun t ht => ?_, fun t ht => ?_⟩
    · rw [hcase]
      exact List.Nodup.sublist ((List.filter_sublist _).map _) hnd
    · rw [hcase] at ht
      rw [delete_nextId]
      exact hlt t (List.mem_filter.1 ht).1
    · rw [hcase] at ht
      exact hst t (List.mem_filter.1 ht).1

lemma goodDB_applyOp (db : DB) (op : Op) (h : goodDB db) :
    goodDB (applyOp db op) := by
  cases op with
  | add now d => exact goodDB_add db now d h
  | setStatus i s => exact goodDB_update db i s h
  | del i => exact goodDB_delete db i h

lemma goodDB_runOps (db : DB) (h : goodDB db) (ops : List Op) :
    goodDB (runOps db ops) := by
  induction ops generalizing db with
  | nil => exact h
  | cons op rest ih => exact ih (applyOp db op) (goodDB_applyOp db op h)

/-- C4: on every reachable store, the pending-filtered listing is exactly
the pending subset of the unfiltered listing, the completed-filtered
listing exactly the completed subset, and the two together partition the
unfiltered listing. -/
theorem view_filter_partition (ops : List Op) :
    (view_rows (runOps db0 ops) (some pendingS)).Perm
      ((view_rows (runOps db0 ops) none).filter (fun t => t.status == pendingS)) ∧
    (view_rows (runOps db0 ops) (some completedS)).Perm
      ((view_rows (runOps db0 ops) none).filter (fun t => t.status == completedS)) ∧
    (view_rows (runOps db0 ops) (some pendingS)
      ++ view_rows (runOps db0 ops) (some completedS)).Perm
      (view_rows (runOps db0 ops) none) := by
  set db := runOps db0 ops with hdb
  obtain ⟨_, _, hst⟩ := goodDB_runOps db0 goodDB_db0 ops
  have permP : (view_rows db (some pendingS)).Perm
      (db.tasks.filter (fun t => t.status == pendingS)) := by
    rw [view_rows_some db pendingS (by decide)]
    exact List.perm_insertionSort _ _
  have permC : (view_rows db (some completedS)).Perm
      (db.tasks.filter (fun t => t.status == completedS)) := by
    rw [view_rows_some db completedS (by decide)]
    exact List.perm_insertionSort _ _
  have permN : (view_rows db none).Perm db.tasks := List.perm_insertionSort _ _
  have hcongr : db.tasks.filter (fun t => t.status == completedS)
      = db.tasks.filter (fun t => !(t.status == pendingS)) := by
    apply List.filter_congr
    intro t ht
    rcases hst t (hdb ▸ ht) with h1 | h1 <;> rw [h1] <;> decide
  have key : (db.tasks.filter (fun t => t.status == pendingS)
      ++ db.tasks.filter (fun t => t.status == completedS)).Perm db.tasks := by
    rw [hcongr]
    exact List.filter_append_perm _ db.tasks
  exact ⟨permP.trans (permN.filter _).symm,
         permC.trans (permN.filter _).symm,
         ((permP.append permC).trans key).trans permN.symm⟩

/-- C8: in every store reachable from the fresh database by add,
status-update and delete operations, the task ids are pairwise distinct
and every status is one of the two allowed values. -/
theorem reachable_invariant (ops : List Op) :
    ((runOps db0 ops).tasks.map (fun t => t.id)).Nodup ∧
    ∀ t ∈ (runOps db0 ops).tasks,
      t.status = pendingS ∨ t.status = completedS := by
  obtain ⟨h1, _, h3⟩ := goodDB_runOps db0 goodDB_db0 ops
  exact ⟨h1, h3⟩

/-- Witness for C8 at a concrete operation sequence. -/
theorem reachable_invariant_witness :
    ((runOps db0 [.add 0 (str "a"), .add 0 (str "b"),
        .setStatus 1 completedS]).tasks.map (fun t => t.id)).Nodup ∧
    ((⟨1, str "a", completedS, 0⟩ : Task) ∈
        (runOps db0 [.add 0 (str "a"), .add 0 (str "b"),
          .setStatus 1 completedS]).tasks →
      (⟨1, str "a", completedS, 0⟩ : Task).status = pendingS ∨
      (⟨1, str "a", completedS, 0⟩ : Task).status = completedS) :=
  ⟨(reachable_invariant [.add 0 (str "a"), .add 0 (str "b"),
      .setStatus 1 completedS]).1,
   (reachable_invariant [.add 0 (str "a"), .add 0 (str "b"),
      .setStatus 1 completedS]).2 _⟩

/-! ### C7: AUTOINCREMENT id assignment -/

lemma nextId_applyOp (db : DB) (op : Op) :
    db.nextId ≤ (applyOp db op).nextId := by
  cases op with
  | add now d => exact Nat.le_succ _
  | setStatus i s =>
    show db.nextId ≤ (update_task_status i s db).1.nextId
    rw [update_nextId]
  | del i =>
    show db.nextId ≤ (delete_task i db).1.nextId
    rw [delete_nextId]

lemma issued_ge (ops : List Op) :
    ∀ (db : DB), ∀ i ∈ issuedIds db ops, db.nextId ≤ i := by
  induction ops with
  | nil => intro db i hi; cases hi
  | cons op rest ih =>
    intro db i hi
    cases op with
    | add now d =>
      rcases List.mem_cons.1 hi with h | h
      · exact h ▸ Nat.le_refl _
      · exact Nat.le_trans (Nat.le_succ _) (ih (add_task now d db).1 i h)
    | setStatus j s =>
      exact Nat.le_trans (nextId_applyOp db (.setStatus j s))
        (ih (applyOp db (.setStatus j s)) i hi)
    | del j =>
      exact Nat.le_trans (nextId_applyOp db (.del j))
        (ih (applyOp db (.del j)) i hi)

/-- C7: within a session, the ids returned by the successive (always
successful) `add_task` calls are strictly increasing, hence each new id
differs from — and exceeds — every previously issued id, including ids of
since-deleted tasks. -/
theorem issuedIds_strictly_increasing (db : DB) (ops : List Op) :
    (issuedIds db ops).Pairwise (fun i j => i < j) := by
  induction ops generalizing db with
  | nil => exact List.Pairwise.nil
  | cons op rest ih =>
    cases op with
    | add now d =>
      show ((add_task now d db).2 :: issuedIds (add_task now d db).1 rest).Pairwise _
      refine List.Pairwise.cons ?_ (ih (add_task now d db).1)
      intro j hj
      exact Nat.lt_of_succ_le (issued_ge rest (add_task now d db).1 j hj)
    | setStatus i s => exact ih (applyOp db (.setStatus i s))
    | del i => exact ih (applyOp db (.del i))

/-! ### C9: robustness of the command loop -/

/-- Messages that report a user-input error at the command-loop level
(the two lines printed for an unknown command both count). -/
def isErrorMsg : Msg → Bool
  | .missingDescription => true
  | .badFilter _ => true
  | .missingId _ => true
  | .badId _ _ => true
  | .unknownCommand _ => true
  | .helpLine => true
  | _ => false

/-- The malformed commands of the claim, in terms of the parsed command
token and argument: `add` without a description, `view` with an invalid
filter, `complete`/`pending`/`delete` with a missing or non-integer id,
and any unrecognized nonempty command. -/
def malformedCmd (c a : PyStr) : Prop :=
  (c = str "add" ∧ a = []) ∨
  (c = str "view" ∧ a ≠ [] ∧ ¬ (lower a = pendingS ∨ lower a = completedS)) ∨
  ((c = str "complete" ∨ c = str "pending" ∨ c = str "delete") ∧
    (a = [] ∨ pyInt? a = none)) ∨
  (c ≠ [] ∧ c ≠ str "exit" ∧ c ≠ str "add" ∧ c ≠ str "view" ∧
   c ≠ str "complete" ∧ c ≠ str "pending" ∧ c ≠ str "delete")

/-- A raw input line whose parsed form is malformed. -/
def malformedLine (rawLine : PyStr) : Prop :=
  malformedCmd (splitFirst (lower (strip rawLine))).1
    (splitFirst (lower (strip rawLine))).2

lemma dispatch_cont {c : PyStr} (h : ¬ c = str "exit") (now : Nat) (a : PyStr)
    (db : DB) : (dispatch now c a db).2.2 = true := by
  unfold dispatch
  rw [if_neg h]
  repeat' split
  all_goals rfl

lemma dispatch_exit_iff (now : Nat) (c a : PyStr) (db : DB) :
    (dispatch now c a db).2.2 = false ↔ c = str "exit" := by
  constructor
  · intro h
    by_contra hne
    rw [dispatch_cont hne] at h
    exact Bool.noConfusion h
  · intro h
    subst h
    rfl

lemma dispatch_malformed (now : Nat) (c a : PyStr) (db : DB)
    (h : malformedCmd c a) :
    (dispatch now c a db).1 = db ∧
    (dispatch now c a db).2.1 ≠ [] ∧
    (∀ m ∈ (dispatch now c a db).2.1, isErrorMsg m = true) ∧
    (dispatch now c a db).2.2 = true := by
  rcases h with ⟨hc, ha⟩ | ⟨hc, ha, hf⟩ | ⟨hc, ha⟩ |
    ⟨h0, h1, h2, h3, h4, h5, h6⟩
  · subst hc
    subst ha
    refine ⟨rfl, ?_, ?_, rfl⟩
    · show ([Msg.missingDescription] : List Msg) ≠ []
      simp
    · show ∀ m ∈ ([Msg.missingDescription] : List Msg), isErrorMsg m = true
      intro m hm
      rw [List.mem_singleton] at hm
      subst hm
      rfl
  · subst hc
    unfold dispatch
    rw [if_neg (by decide : ¬ str "view" = str "exit"),
        if_neg (by decide : ¬ str "view" = str "add"),
        if_pos rfl, if_pos ha, if_neg hf]
    refine ⟨rfl, by simp, ?_, rfl⟩
    intro m hm
    rw [List.mem_singleton] at hm
    subst hm
    rfl
  · have hne : ¬ c = str "exit" := by rcases hc with rfl | rfl | rfl <;> decide
    have hna : ¬ c = str "add" := by rcases hc with rfl | rfl | rfl <;> decide
    have hnv : ¬ c = str "view" := by rcases hc with rfl | rfl | rfl <;> decide
    unfold dispatch
    rw [if_neg hne, if_neg hna, if_neg hnv, if_pos hc]
    by_cases haemp : a = []
    · rw [if_neg (fun hcon => hcon haemp)]
      refine ⟨rfl, by simp, ?_, rfl⟩
      intro m hm
      rw [List.mem_singleton] at hm
      subst hm
      rfl
    · have hnone : pyInt? a = none := by
        rcases ha with ha | ha
        · exact absurd ha haemp
        · exact ha
      rw [if_pos haemp, hnone]
      refine ⟨rfl, by simp, ?_, rfl⟩
      intro m hm
      rw [List.mem_singleton] at hm
      subst hm
      rfl
  · have hc4 : ¬ (c = str "complete" ∨ c = str "pending" ∨ c = str "delete") :=
      fun hcon => hcon.elim h4 (fun hcon' => hcon'.elim h5 h6)
    unfold dispatch
    rw [if_neg h1, if_neg h2, if_neg h3, if_neg hc4, if_neg h0]
    refine ⟨rfl, by simp, ?_, rfl⟩
    intro m hm
    rcases List.mem_cons.1 hm with rfl | hm
    · rfl
    · rw [List.mem_singleton] at hm
      subst hm
      rfl

/-- C9: for every input line, a blank line leaves the store unchanged,
prints nothing and continues; a malformed or unrecognized command leaves
the store unchanged, prints at least one error message (only error
messages) and continues; and the loop signals termination exactly when
the command token is `exit` (otherwise it never terminates the process —
end of input is the only other way out of the loop). -/
theorem cli_loop_robust (now : Nat) (line : PyStr) (db : DB) :
    (strip line = [] → processLine now line db = (db, [], true)) ∧
    (malformedLine line →
      (processLine now line db).1 = db ∧
      (processLine now line db).2.1 ≠ [] ∧
      (∀ m ∈ (processLine now line db).2.1, isErrorMsg m = true) ∧
      (processLine now line db).2.2 = true) ∧
    ((processLine now line db).2.2 = false ↔
      (splitFirst (lower (strip line))).1 = str "exit") := by
  refine ⟨?_, ?_, ?_⟩
  · intro h
    show dispatch now (splitFirst (lower (strip line))).1
      (splitFirst (lower (strip line))).2 db = (db, [], true)
    rw [h]
    rfl
  · intro h
    exact dispatch_malformed now _ _ db h
  · exact dispatch_exit_iff now _ _ db

/-- Witness for C9: a blank line, an unknown command, and a non-`exit`
line, all concrete. -/
theorem cli_loop_robust_witness :
    processLine 0 (str "  ") db0 = (db0, [], true) ∧
    ((processLine 0 (str "frobnicate") db0).1 = db0 ∧
      (processLine 0 (str "frobnicate") db0).2.1 ≠ [] ∧
      (∀ m ∈ (processLine 0 (str "frobnicate") db0).2.1, isErrorMsg m = true) ∧
      (processLine 0 (str "frobnicate") db0).2.2 = true) ∧
    ((processLine 0 (str "add milk") db0).2.2 = false ↔
      (splitFirst (lower (strip (str "add milk")))).1 = str "exit") :=
  ⟨(cli_loop_robust 0 (str "  ") db0).1 (by decide),
   (cli_loop_robust 0 (str "frobnicate") db0).2.1
     (Or.inr (Or.inr (Or.inr ⟨by decide, by decide, by decide, by decide,
       by decide, by decide, by decide⟩))),
   (cli_loop_robust 0 (str "add milk") db0).2.2⟩

/-! ### C10: the input line is lowercased before dispatch -/

lemma isSpace_of_ge (c : Nat) (h : 33 ≤ c) : isSpace c = false := by
  unfold isSpace
  simp only [Bool.or_eq_false_iff, beq_eq_false_iff_ne]
  omega

lemma lowerChar_idem (c : Nat) : lowerChar (lowerChar c) = lowerChar c := by
  unfold lowerChar
  split
  · rw [if_neg (by omega)]
  · rfl

lemma isSpace_lowerChar (c : Nat) : isSpace (lowerChar c) = isSpace c := by
  unfold lowerChar
  split
  · next h => rw [isSpace_of_ge (c + 32) (by omega), isSpace_of_ge c (by omega)]
  · rfl

lemma lower_idem (s : PyStr) : lower (lower s) = lower s := by
  unfold lower
  rw [List.map_map]
  exact List.map_congr_left (fun c _ => lowerChar_idem c)

lemma dropWhile_space_lower (s : PyStr) :
    (lower s).dropWhile isSpace = lower (s.dropWhile isSpace) := by
  induction s with
  | nil => rfl
  | cons c t ih =>
    show List.dropWhile isSpace (lowerChar c :: lower t)
      = lower (List.dropWhile isSpace (c :: t))
    rw [List.dropWhile_cons, List.dropWhile_cons, isSpace_lowerChar]
    split
    · exact ih
    · rfl

lemma dropWhile_nonspace_lower (s : PyStr) :
    (lower s).dropWhile (fun c => !isSpace c)
      = lower (s.dropWhile (fun c => !isSpace c)) := by
  induction s with
  | nil => rfl
  | cons c t ih =>
    show List.dropWhile (fun c => !isSpace c) (lowerChar c :: lower t)
      = lower (List.dropWhile (fun c => !isSpace c) (c :: t))
    rw [List.dropWhile_cons, List.dropWhile_cons, isSpace_lowerChar]
    split
    · exact ih
    · rfl

lemma lower_reverse (s : PyStr) : lower s.reverse = (lower s).reverse :=
  List.map_reverse lowerChar s

lemma stripRight_lower (s : PyStr) :
    stripRight (lower s) = lower (stripRight s) := by
  unfold stripRight
  rw [← lower_reverse, dropWhile_space_lower, ← lower_reverse]

lemma strip_lower (s : PyStr) : strip (lower s) = lower (strip s) := by
  unfold strip stripLeft
  rw [dropWhile_space_lower, stripRight_lower]

lemma splitFirst_arg_lower (u : PyStr) :
    (splitFirst (lower u)).2 = lower (splitFirst u).2 := by
  unfold splitFirst
  rw [dropWhile_space_lower, dropWhile_nonspace_lower, dropWhile_space_lower]

lemma splitFirst_arg_fixed (line : PyStr) :
    lower (splitFirst (lower (strip line))).2
      = (splitFirst (lower (strip line))).2 := by
  rw [splitFirst_arg_lower, lower_idem]

/-- C10 (implicit): `main` lowercases the whole input line before
splitting it, so a line and its lowercase form behave identically
(commands and view filters are case-insensitive), and every description a
REPL step stores is fixed by lowercasing — upper-case characters are never
persisted in a new description. -/
theorem input_lowercased (now : Nat) (line : PyStr) (db : DB) :
    processLine now (lower line) db = processLine now line db ∧
    ∀ t ∈ (processLine now line db).1.tasks,
      t.description ∈ db.tasks.map (fun t => t.description) ∨
      lower t.description = t.description := by
  constructor
  · show processCore now (lower (strip (lower line))) db = _
    rw [strip_lower, lower_idem]
    rfl
  · intro t ht
    rcases dispatch_descriptions now (splitFirst (lower (strip line))).1
        (splitFirst (lower (strip line))).2 db t.description
        (List.mem_map.2 ⟨t, ht, rfl⟩) with h | ⟨h1, _⟩
    · exact Or.inl h
    · right
      rw [h1, splitFirst_arg_fixed]

/-- Witness for C10 at a mixed-case concrete line. -/
theorem input_lowercased_witness :
    processLine 0 (lower (str "ADD Milk")) db0
      = processLine 0 (str "ADD Milk") db0 ∧
    ((⟨1, str "milk", pendingS, 0⟩ : Task)
        ∈ (processLine 0 (str "ADD Milk") db0).1.tasks →
      (⟨1, str "milk", pendingS, 0⟩ : Task).description
          ∈ db0.tasks.map (fun t => t.description) ∨
      lower (⟨1, str "milk", pendingS, 0⟩ : Task).description
          = (⟨1, str "milk", pendingS, 0⟩ : Task).description) :=
  ⟨(input_lowercased 0 (str "ADD Milk") db0).1,
   fun h => (input_lowercased 0 (str "ADD Milk") db0).2 _ h⟩

end Todo
